import Mathlib

/-!
Verification of `pkg/collectors` (board-state-metrics).

A shallow embedding of the label utilities, the query adapters, the cluster and
node resource collectors and the refresh loop of `pkg/collectors`, followed by
the properties established about them.

Conventions of the embedding:

* a Go `string` is a Lean `String` (a sequence of Unicode code points, that is a
  valid UTF-8 Go string), manipulated through its list of characters;
* a Go `map[string]string` is an association list read with `List.lookup`; the
  nil map is `none`;
* a Go `float64` is only ever copied by this package (or replaced by the constant
  `0`), so the carrier `Float64` is an exact number type on which no arithmetic
  is performed;
* a call that can panic returns an `Option`, where `none` is the panic;
* a Go `(value, error)` result is a pair whose second component is `none` for a
  nil error;
* the outcome of a call to an external service (query API, node API, client
  construction) is an explicit argument.
-/

namespace Collectors

/-! ## Basic carriers -/

/-- Carrier of Go `float64` values; the package copies them and never computes with them. -/
abbrev Float64 := ℚ

/-- Go `error` values, identified with their message. -/
abbrev GoError := String

/-- Go `map[string]string` (non-nil): entries, the first entry of a key being its binding. -/
abbrev StringMap := List (String × String)

/-- Assignment `m[k] = v` on a Go map: the binding of `k` is replaced. -/
def StringMap.set (m : StringMap) (k v : String) : StringMap :=
  (k, v) :: m.filter (fun e => e.1 != k)

/-! ## `strings.Split` with a one-character separator -/

/-- Pieces of a character sequence between the occurrences of `sep`. -/
def splitChars (sep : Char) : List Char → List (List Char)
  | [] => [[]]
  | c :: cs =>
    if c = sep then [] :: splitChars sep cs
    else
      match splitChars sep cs with
      | [] => [[c]]
      | p :: ps => (c :: p) :: ps

/-- Model of `strings.Split(s, sep)` of the Go standard library for a separator of one
character: the substrings of `s` between the occurrences of `sep`, in order. -/
def Split (s : String) (sep : Char) : List String :=
  (splitChars sep s.data).map String.mk

/-! ## utils.go -/

/-- Character class of `invalidLabelCharRE`, the regular expression `[^a-zA-Z0-9_]`. -/
def invalidLabelCharRE (c : Char) : Bool :=
  !((decide ('a' ≤ c) && decide (c ≤ 'z')) || (decide ('A' ≤ c) && decide (c ≤ 'Z'))
    || (decide ('0' ≤ c) && decide (c ≤ '9')) || c == '_')

/-- Source `sanitizeLabelName`: `invalidLabelCharRE.ReplaceAllString(s, "_")`, every match of
the one-character class is replaced by an underscore. -/
def sanitizeLabelName (s : String) : String :=
  String.mk (s.data.map (fun c => if invalidLabelCharRE c then '_' else c))

/-- Source `getMapString`: split the `ip:port` to `ip` and map the `ip` to a name. -/
def getMapString (addr : String) (mapping : Option StringMap) : String :=
  match mapping with
  | none => addr
  | some m =>
    match Split addr ':' with
    | a0 :: _ :: _ =>
      match m.lookup a0 with
      | some name => name
      | none => addr
    | _ => addr

/-- Spec wording of the address part: `addr` with everything from its first colon onward
removed (the whole of `addr` when it has no colon). -/
def addressPart (addr : String) : String :=
  String.mk (addr.data.takeWhile (fun c => c != ':'))

/-- Type `metric.Metric`: label keys, label values and the value. -/
structure Metric where
  LabelKeys : List String
  LabelValues : List String
  Value : Float64
  deriving DecidableEq

/-- Type `model.Metric`, a Go map from label names to label values, given as its entries in
the order in which one `range` loop visits them; the keys of a map are pairwise distinct. -/
abbrev PromMetric := List (String × String)

/-- Source `convertPromMetricToKSMMetric`: the keys and the values of the label set, in the
order of the `range` loop; the value of the result is left at its zero value. -/
def convertPromMetricToKSMMetric (pm : PromMetric) : Metric :=
  { LabelKeys := pm.map (fun kv => kv.1)
    LabelValues := pm.map (fun kv => kv.2)
    Value := 0 }

/-- Search loop of `addMetricNodenameBaseOnInstance`: position of the first label key equal
to `instance`; `none` stands for the initial `index := -1`. -/
def instanceIndex : List String → Option Nat
  | [] => none
  | label :: rest =>
    if label = "instance" then some 0
    else (instanceIndex rest).map (fun i => i + 1)

/-- Loop body of `addMetricNodenameBaseOnInstance` on one metric `s`, for a non-nil mapping.
The read `s.LabelValues[index]` panics (`none`) when `index` is out of range. -/
def addNodename (s : Metric) (mapping : StringMap) : Option Metric :=
  match instanceIndex s.LabelKeys with
  | none => some s
  | some index =>
    match s.LabelValues.get? index with
    | none => none
    | some v =>
      some { s with
        LabelKeys := s.LabelKeys ++ ["nodename_for_board"]
        LabelValues := s.LabelValues ++ [getMapString v (some mapping)] }

/-- Loop of `addMetricNodenameBaseOnInstance` over the metrics, in order. -/
def addNodenameAll (mapping : StringMap) : List Metric → Option (List Metric)
  | [] => some []
  | s :: rest =>
    match addNodename s mapping with
    | none => none
    | some s' =>
      match addNodenameAll mapping rest with
      | none => none
      | some rest' => some (s' :: rest')

/-- Source `addMetricNodenameBaseOnInstance`. The slice holds pointers to pairwise distinct
metrics (as `getMultiSampleValues` builds it), so the in-place update of each metric is the
update of the corresponding list element; `none` is a panic. -/
def addMetricNodenameBaseOnInstance (source : List Metric) (mapping : Option StringMap) :
    Option (List Metric) :=
  match mapping with
  | none => some source
  | some m => addNodenameAll m source

/-! ## The query API -/

/-- Type `model.Sample`: a label set and a value. -/
structure Sample where
  Metric : PromMetric
  Value : Float64
  deriving DecidableEq

/-- Type `model.Value`, the result of a query, by its `model.ValueType`. -/
inductive PromValue where
  | none
  | scalar (v : Float64)
  | vector (vec : List Sample)
  | matrix
  | string (s : String)
  deriving DecidableEq

/-- Method `ValueType.String` applied to the type of a value. -/
def PromValue.typeString : PromValue → String
  | .none => "<ValNone>"
  | .scalar _ => "scalar"
  | .vector _ => "vector"
  | .matrix => "matrix"
  | .string _ => "string"

/-- Outcome `(values, warns, err)` of one call `papi.Query(c, psql, time.Now())`. -/
inductive QueryResponse where
  | failure (err : GoError)
  | success (values : PromValue) (warns : List String)
  deriving DecidableEq

/-- The query API `v1.API` during one refresh cycle: the response to each query text. -/
abbrev PromAPI := String → QueryResponse

/-- Error message built for a result that is not a vector. -/
def notVectorError (psql : String) (values : PromValue) : GoError :=
  "Query prometheus metric " ++ psql ++ " type " ++ values.typeString ++ " is not vector"

/-! ## cluster_resource.go -/

/-- Constant `CLUSTER_CPU_UTILIZATION_PSQL`. -/
def CLUSTER_CPU_UTILIZATION_PSQL : String :=
  "1-avg(rate(node_cpu_seconds_total\x7bmode=\"idle\"\x7d[5m]))"

/-- Constant `CLUSTER_MEMORY_UTILIZATION_PSQL`. -/
def CLUSTER_MEMORY_UTILIZATION_PSQL : String :=
  "1 - sum(:node_memory_MemAvailable_bytes:sum\x7b\x7d) / sum(kube_node_status_allocatable_memory_bytes\x7b\x7d)"

/-- Source `getSingleSampleValue`: the value and the error returned. -/
def getSingleSampleValue (papi : PromAPI) (psql : String) : Float64 × Option GoError :=
  match papi psql with
  | .failure err => (0, some err)
  | .success values _ =>
    match values with
    | .vector vec =>
      match vec with
      | [] => (0, none)
      | sample :: _ => (sample.Value, none)
    | _ => (0, some (notVectorError psql values))

/-- Type `ClusterValue`; `UID` is the `UID` field of its `ObjectMeta`. -/
structure ClusterValue where
  UID : String
  CPU : Metric
  Memory : Metric
  deriving DecidableEq

/-- Source `getClusterResourceMetrics`; `papi` is the outcome of `getPrometheusAPI(url)`. -/
def getClusterResourceMetrics (papi : Except GoError PromAPI) : List ClusterValue :=
  match papi with
  | .error _ => []
  | .ok papi =>
    let r1 := getSingleSampleValue papi CLUSTER_CPU_UTILIZATION_PSQL
    let cpu := if r1.2.isSome then 0 else r1.1
    let cpumetric : Metric := { LabelKeys := [], LabelValues := [], Value := cpu }
    let r2 := getSingleSampleValue papi CLUSTER_MEMORY_UTILIZATION_PSQL
    let memory := if r2.2.isSome then 0 else r2.1
    let memorymetric : Metric := { LabelKeys := [], LabelValues := [], Value := memory }
    [{ UID := "cluster_utilization", CPU := cpumetric, Memory := memorymetric }]

/-- Type `metric.FamilyGenerator` for objects of type `α` (all families are gauges); the
family generated is given by its list of metrics. -/
structure FamilyGenerator (α : Type) where
  Name : String
  Help : String
  GenerateFunc : α → List Metric

/-- Variable `clusterResourceMetricFamilies`. -/
def clusterResourceMetricFamilies : List (FamilyGenerator ClusterValue) :=
  [ { Name := "board_cluster_cpu_utilization"
      Help := "Cluster CPU Utilization"
      GenerateFunc := fun c => [] ++ [c.CPU] },
    { Name := "board_cluster_memory_utilization"
      Help := "Cluster Memory Utilization"
      GenerateFunc := fun c => [] ++ [c.Memory] } ]

/-! ## node_resource.go -/

/-- Constant `NODE_CPU_UTILIZATION_PSQL`. -/
def NODE_CPU_UTILIZATION_PSQL : String :=
  "sum by (instance) (instance:node_cpu_utilisation:rate1m\x7bjob=\"node-exporter\"\x7d)"

/-- Constant `NODE_MEMORY_UTILIZATION_PSQL`. -/
def NODE_MEMORY_UTILIZATION_PSQL : String :=
  "sum by (instance) (instance:node_memory_utilisation:ratio\x7bjob=\"node-exporter\"\x7d)"

/-- Constant `NODE_STORAGE_UTILIZATION_PSQL`. -/
def NODE_STORAGE_UTILIZATION_PSQL : String :=
  "1 -(sum by (instance) (node_filesystem_avail_bytes\x7bjob=\"node-exporter\", fstype!=\"\", device!=\"\"\x7d)/sum by(instance) (node_filesystem_size_bytes\x7bjob=\"node-exporter\", fstype!=\"\", device!=\"\"\x7d))"

/-- Type `NodeValues`; `UID` is the `UID` field of its `ObjectMeta`. -/
structure NodeValues where
  UID : String
  CPU : List Metric
  Memory : List Metric
  Storage : List Metric
  deriving DecidableEq

/-- Loop body of `getMultiSampleValues`: the converted label set with the sample value. -/
def sampleToMetric (v : Sample) : Metric :=
  { convertPromMetricToKSMMetric v.Metric with Value := v.Value }

/-- Source `getMultiSampleValues`: the metrics and the error returned. -/
def getMultiSampleValues (papi : PromAPI) (psql : String) : List Metric × Option GoError :=
  match papi psql with
  | .failure err => ([], some err)
  | .success values _ =>
    match values with
    | .vector vec => (vec.map sampleToMetric, none)
    | _ => ([], some (notVectorError psql values))

/-- A node of the listing: its name and the addresses of its status. -/
structure Node where
  Name : String
  Addresses : List String
  deriving DecidableEq

/-- A constructed node client: the outcome of `CoreV1().Nodes().List`, an error or the
(possibly nil) node list. -/
structure Clientset where
  nodesList : Except GoError (Option (List Node))

/-- Source `createk8sClient`; `buildConfig` is the outcome of `BuildConfigFromFlags` and
`newForConfig` that of `kubernetes.NewForConfig`. A failure of the first is returned as an
error, a failure of the second panics (`none`). -/
def createk8sClient (buildConfig : Except GoError Unit)
    (newForConfig : Except GoError Clientset) : Option (Except GoError Clientset) :=
  match buildConfig with
  | .error err => some (.error err)
  | .ok _ =>
    match newForConfig with
    | .error _ => none
    | .ok clientset => some (.ok clientset)

/-- Directory loop of `getNodeResourceMetrics`: `nodeMap[addr.Address] = n.Name` for every
address of every node, in order, from the empty map. -/
def buildNodeMap (nodes : Option (List Node)) : StringMap :=
  match nodes with
  | none => []
  | some items =>
    items.foldl (fun m n => n.Addresses.foldl (fun m addr => m.set addr n.Name) m) []

/-- Source `getNodeResourceMetrics`; `papi`, `buildConfig` and `newForConfig` are the
outcomes of the three constructions. `none` is a panic. -/
def getNodeResourceMetrics (papi : Except GoError PromAPI) (buildConfig : Except GoError Unit)
    (newForConfig : Except GoError Clientset) : Option (List NodeValues) :=
  match papi with
  | .error _ => some []
  | .ok papi =>
    match createk8sClient buildConfig newForConfig with
    | none => none
    | some (.error _) => some []
    | some (.ok k8scli) =>
      match k8scli.nodesList with
      | .error _ => some []
      | .ok nodes =>
        let nodeMap := buildNodeMap nodes
        let cpus := (getMultiSampleValues papi NODE_CPU_UTILIZATION_PSQL).1
        let memorys := (getMultiSampleValues papi NODE_MEMORY_UTILIZATION_PSQL).1
        let storages := (getMultiSampleValues papi NODE_STORAGE_UTILIZATION_PSQL).1
        match addMetricNodenameBaseOnInstance cpus (some nodeMap) with
        | none => none
        | some cpu =>
          match addMetricNodenameBaseOnInstance memorys (some nodeMap) with
          | none => none
          | some memory =>
            match addMetricNodenameBaseOnInstance storages (some nodeMap) with
            | none => none
            | some storage =>
              some [{ UID := "node_memory_utilization"
                      CPU := cpu, Memory := memory, Storage := storage }]

/-- Variable `nodeResourceMetricFamilies`. -/
def nodeResourceMetricFamilies : List (FamilyGenerator NodeValues) :=
  [ { Name := "board_node_cpu_utilization"
      Help := "Node CPU Utilization"
      GenerateFunc := fun c => c.CPU.foldl (fun f m => f ++ [m]) [] },
    { Name := "board_node_memory_utilization"
      Help := "Node Memory Utilization"
      GenerateFunc := fun c => c.Memory.foldl (fun f m => f ++ [m]) [] },
    { Name := "board_node_storage_utilization"
      Help := "Node Storage Utilization"
      GenerateFunc := fun c => c.Storage.foldl (fun f m => f ++ [m]) [] } ]

/-! ## builder.go -/

/-- Function passed to `wait.Forever` by `retriveFromProm`, one cycle of the refresh loop:
`objs` is what the acquisition function `query` returned in this cycle, `update` is the
method `store.Update` of the `cache.Store` interface acting on a store state. -/
def refreshCycle {σ α : Type} (update : σ → α → σ) (store : σ) (objs : List α) : σ :=
  objs.foldl update store

/-- Source `retriveFromProm`, run for the cycles whose acquisition results are `ticks`, in
order (the pause of 15 seconds between two cycles is not represented). -/
def retriveFromProm {σ α : Type} (update : σ → α → σ) (store : σ) (ticks : List (List α)) : σ :=
  ticks.foldl (refreshCycle update) store

/-- A store that records the calls of `Update`, in order. -/
def recordUpdate {α : Type} (calls : List α) (obj : α) : List α :=
  calls ++ [obj]

/-- Modelled from the spec: the metric store behind `cache.Store` (package `metrics_store`,
not part of the sources), a mapping from identity key to domain object, as its entries. -/
abbrev MetricsStore (α : Type) := List (String × α)

/-- Modelled from the spec: `update(identityKey, domainObject)` of the metric store, which
replaces the prior contents under the identity key of the object. -/
def MetricsStore.Update {α : Type} (uid : α → String) (s : MetricsStore α) (obj : α) :
    MetricsStore α :=
  (uid obj, obj) :: s.filter (fun e => e.1 != uid obj)

/-! ## Specification-side definitions -/

/-- Spec wording of the enrichment of one metric: when the metric has an `instance` label,
one label `nodename_for_board` is appended at the end, its value being `getMapString` of the
value paired with the first `instance` key; otherwise the metric is unchanged. -/
def enrichedMetric (d : StringMap) (s : Metric) : Metric :=
  match (s.LabelKeys.zip s.LabelValues).lookup "instance" with
  | none => s
  | some v =>
    { LabelKeys := s.LabelKeys ++ ["nodename_for_board"]
      LabelValues := s.LabelValues ++ [getMapString v (some d)]
      Value := s.Value }

/-- Condition under which the read `s.LabelValues[index]` is in range: a metric with an
`instance` key has a label value at the position of its first `instance` key. -/
def instanceValuePresent (s : Metric) : Bool :=
  match instanceIndex s.LabelKeys with
  | none => true
  | some i => decide (i < s.LabelValues.length)

/-- Spec wording of the sample selected by a single-sample query: the value of the first
element of the vector in the returned order; `0` when there is none. -/
def selectedSample : QueryResponse → Float64
  | .success (.vector (sample :: _)) _ => sample.Value
  | _ => 0

/-- Spec wording of the enriched conversion of the response to a vector query: one metric
per sample of the vector, converted and enriched, in order; the empty sequence when the
query failed. -/
def enrichedConversion (d : StringMap) : QueryResponse → List Metric
  | .success (.vector vec) _ => vec.map (fun v => enrichedMetric d (sampleToMetric v))
  | _ => []

/-! ## Lemmas on `Split` -/

theorem splitChars_ne_nil (sep : Char) (cs : List Char) : splitChars sep cs ≠ [] := by
  cases cs with
  | nil => simp [splitChars]
  | cons c cs =>
    unfold splitChars
    split
    · simp
    · split <;> simp

theorem splitChars_length (sep : Char) (cs : List Char) :
    (splitChars sep cs).length = cs.count sep + 1 := by
  induction cs with
  | nil => simp [splitChars]
  | cons c cs ih =>
    unfold splitChars
    by_cases h : c = sep
    · subst h
      simp [ih]
    · have hne : splitChars sep cs ≠ [] := splitChars_ne_nil sep cs
      rw [if_neg h]
      cases hs : splitChars sep cs with
      | nil => exact absurd hs hne
      | cons p ps =>
        rw [hs] at ih
        simp only [List.length_cons] at ih ⊢
        rw [List.count_cons_of_ne (Ne.symm h)]
        exact ih

theorem splitChars_head (sep : Char) (cs : List Char) :
    (splitChars sep cs).head? = some (cs.takeWhile (fun c => c != sep)) := by
  induction cs with
  | nil => simp [splitChars]
  | cons c cs ih =>
    unfold splitChars
    by_cases h : c = sep
    · subst h
      simp
    · rw [if_neg h]
      cases hs : splitChars sep cs with
      | nil => exact absurd hs (splitChars_ne_nil sep cs)
      | cons p ps =>
        rw [hs] at ih
        simp only [List.head?_cons, Option.some.injEq] at ih
        simp [List.takeWhile_cons, h, ih]

theorem splitChars_intercalate (sep : Char) (cs : List Char) :
    List.intercalate [sep] (splitChars sep cs) = cs := by
  induction cs with
  | nil => simp [splitChars, List.intercalate]
  | cons c cs ih =>
    unfold splitChars
    by_cases h : c = sep
    · subst h
      rw [if_pos rfl]
      cases hs : splitChars c cs with
      | nil => exact absurd hs (splitChars_ne_nil c cs)
      | cons p ps =>
        rw [hs] at ih
        simp only [List.intercalate, List.intersperse, List.flatten, List.nil_append] at ih ⊢
        simp [ih]
    · rw [if_neg h]
      cases hs : splitChars sep cs with
      | nil => exact absurd hs (splitChars_ne_nil sep cs)
      | cons p ps =>
        rw [hs] at ih
        cases ps with
        | nil =>
          simp only [List.intercalate, List.intersperse, List.flatten, List.append_nil] at ih ⊢
          simp [ih]
        | cons q qs =>
          simp only [List.intercalate, List.intersperse, List.flatten] at ih ⊢
          rw [← ih]
          simp

theorem Split_of_not_mem (addr : String) (h : ':' ∉ addr.data) :
    ∃ a0, Split addr ':' = [a0] := by
  have hlen := splitChars_length ':' addr.data
  rw [List.count_eq_zero_of_not_mem h] at hlen
  unfold Split
  cases hs : splitChars ':' addr.data with
  | nil => exact absurd hs (splitChars_ne_nil _ _)
  | cons p ps =>
    rw [hs] at hlen
    cases ps with
    | nil => exact ⟨String.mk p, rfl⟩
    | cons q qs => simp at hlen

theorem Split_of_mem (addr : String) (h : ':' ∈ addr.data) :
    ∃ a1 rest, Split addr ':' = addressPart addr :: a1 :: rest := by
  have hlen := splitChars_length ':' addr.data
  have hhead := splitChars_head ':' addr.data
  have hpos : 0 < addr.data.count ':' := List.count_pos_iff.mpr h
  unfold Split addressPart
  cases hs : splitChars ':' addr.data with
  | nil => exact absurd hs (splitChars_ne_nil _ _)
  | cons p ps =>
    rw [hs] at hlen hhead
    simp only [List.head?_cons, Option.some.injEq] at hhead
    cases ps with
    | nil =>
      simp only [List.length_cons, List.length_nil] at hlen
      omega
    | cons q qs => exact ⟨String.mk q, qs.map String.mk, by simp [hhead]⟩

/-- Behaviour of `getMapString` in the words of the spec: the lookup of the address part
when the address has a colon, the address itself otherwise. -/
theorem getMapString_eq (addr : String) (mapping : Option StringMap) :
    getMapString addr mapping =
      match mapping with
      | none => addr
      | some m =>
        if ':' ∈ addr.data then (m.lookup (addressPart addr)).getD addr else addr := by
  cases mapping with
  | none => rfl
  | some m =>
    by_cases h : ':' ∈ addr.data
    · obtain ⟨a1, rest, hs⟩ := Split_of_mem addr h
      simp only [getMapString, hs, if_pos h]
      cases m.lookup (addressPart addr) <;> rfl
    · obtain ⟨a0, hs⟩ := Split_of_not_mem addr h
      simp only [getMapString, hs, if_neg h]

/-! ## `getMapString` -/

/-- C1, as stated, fails: the address `10.0.0.5` has no colon, its address part `10.0.0.5`
is a key of the directory, and `getMapString` returns the address, not the name bound to
the key. -/
theorem getMapString_no_colon_counterexample :
    addressPart "10.0.0.5" = "10.0.0.5" ∧
    List.lookup (addressPart "10.0.0.5") [("10.0.0.5", "node-a")] = some "node-a" ∧
    getMapString "10.0.0.5" (some [("10.0.0.5", "node-a")]) = "10.0.0.5" ∧
    getMapString "10.0.0.5" (some [("10.0.0.5", "node-a")]) ≠ "node-a" := by
  decide

/-- C1, amended: for every address `addr` and directory, `getMapString` returns the name
bound to the address part `p` of `addr` (everything before its first colon) when `addr`
contains a colon and `p` is a key of the directory, and returns `addr` unchanged when `addr`
contains no colon, when `p` is not a key, or when the directory is nil; with the two sample
evaluations of the spec. -/
theorem getMapString_addressToName (addr : String) (mapping : Option StringMap) :
    (getMapString addr mapping =
      match mapping with
      | none => addr
      | some m =>
        if ':' ∈ addr.data then
          match m.lookup (addressPart addr) with
          | some name => name
          | none => addr
        else addr) ∧
    getMapString "10.0.0.5:10250" (some [("10.0.0.5", "node-a")]) = "node-a" ∧
    getMapString "10.0.0.5:10250" (some []) = "10.0.0.5:10250" := by
  refine ⟨?_, by decide, by decide⟩
  rw [getMapString_eq]
  cases mapping with
  | none => rfl
  | some m =>
    simp only
    split
    · cases m.lookup (addressPart addr) <;> rfl
    · rfl

/-! ## `sanitizeLabelName` -/

theorem invalidLabelCharRE_underscore : invalidLabelCharRE '_' = false := by decide

theorem invalidLabelCharRE_replace (c : Char) :
    invalidLabelCharRE (if invalidLabelCharRE c then '_' else c) = false := by
  by_cases h : invalidLabelCharRE c = true
  · rw [if_pos h]
    exact invalidLabelCharRE_underscore
  · rw [if_neg h]
    simpa using h

theorem invalidLabelCharRE_eq_false_iff (c : Char) :
    invalidLabelCharRE c = false ↔
      (('a' ≤ c ∧ c ≤ 'z') ∨ ('A' ≤ c ∧ c ≤ 'Z') ∨ ('0' ≤ c ∧ c ≤ '9') ∨ c = '_') := by
  unfold invalidLabelCharRE
  simp only [Bool.not_eq_false', Bool.or_eq_true, Bool.and_eq_true, decide_eq_true_eq,
    beq_iff_eq, or_assoc]

/-- C3: `sanitizeLabelName` is idempotent, every character of its result is in
`[A-Za-z0-9_]`, and position by position a character of the input outside that set is
replaced by an underscore while a character inside it is kept. -/
theorem sanitizeLabelName_idempotent_charset (s : String) :
    sanitizeLabelName (sanitizeLabelName s) = sanitizeLabelName s ∧
    (∀ c ∈ (sanitizeLabelName s).data,
      ('a' ≤ c ∧ c ≤ 'z') ∨ ('A' ≤ c ∧ c ≤ 'Z') ∨ ('0' ≤ c ∧ c ≤ '9') ∨ c = '_') ∧
    (sanitizeLabelName s).data.length = s.data.length ∧
    (∀ i c, s.data.get? i = some c →
      (sanitizeLabelName s).data.get? i =
        some (if ('a' ≤ c ∧ c ≤ 'z') ∨ ('A' ≤ c ∧ c ≤ 'Z') ∨ ('0' ≤ c ∧ c ≤ '9') ∨ c = '_'
          then c else '_')) := by
  refine ⟨?_, ?_, ?_, ?_⟩
  · simp only [sanitizeLabelName, List.map_map]
    congr 1
    apply List.map_congr_left
    intro c _
    simp only [Function.comp_apply]
    rw [invalidLabelCharRE_replace]
    simp
  · intro c hc
    simp only [sanitizeLabelName, List.mem_map] at hc
    obtain ⟨d, _, hd⟩ := hc
    rw [← invalidLabelCharRE_eq_false_iff, ← hd]
    exact invalidLabelCharRE_replace d
  · simp [sanitizeLabelName]
  · intro i c hc
    simp only [sanitizeLabelName, List.get?_eq_getElem?, List.getElem?_map] at hc ⊢
    rw [hc]
    simp only [Option.map_some', Option.some.injEq]
    by_cases h : invalidLabelCharRE c = true
    · have h' : ¬ (('a' ≤ c ∧ c ≤ 'z') ∨ ('A' ≤ c ∧ c ≤ 'Z') ∨ ('0' ≤ c ∧ c ≤ '9') ∨ c = '_') := by
        rw [← invalidLabelCharRE_eq_false_iff]
        simp [h]
      rw [if_pos h, if_neg h']
    · have h' : (('a' ≤ c ∧ c ≤ 'z') ∨ ('A' ≤ c ∧ c ≤ 'Z') ∨ ('0' ≤ c ∧ c ≤ '9') ∨ c = '_') := by
        rw [← invalidLabelCharRE_eq_false_iff]
        simpa using h
      rw [if_neg h, if_pos h']

/-! ## `addMetricNodenameBaseOnInstance` -/

theorem instanceIndex_eq_none_iff (keys : List String) :
    instanceIndex keys = none ↔ "instance" ∉ keys := by
  induction keys with
  | nil => simp [instanceIndex]
  | cons k ks ih =>
    unfold instanceIndex
    by_cases h : k = "instance"
    · simp [h]
    · rw [if_neg h]
      simp only [Option.map_eq_none', ih, List.mem_cons, not_or]
      constructor
      · intro h1
        exact ⟨fun h2 => h h2.symm, h1⟩
      · intro h1
        exact h1.2

theorem instanceIndex_lt (keys : List String) (i : Nat) (h : instanceIndex keys = some i) :
    i < keys.length := by
  induction keys generalizing i with
  | nil => simp [instanceIndex] at h
  | cons k ks ih =>
    unfold instanceIndex at h
    by_cases hk : k = "instance"
    · rw [if_pos hk] at h
      simp only [Option.some.injEq] at h
      subst h
      simp
    · rw [if_neg hk] at h
      cases hi : instanceIndex ks with
      | none => simp [hi] at h
      | some j =>
        simp only [hi, Option.map_some', Option.some.injEq] at h
        subst h
        have := ih j hi
        simp only [List.length_cons]
        omega

theorem lookup_instance_zip (keys values : List String) :
    (keys.zip values).lookup "instance" = (instanceIndex keys).bind values.get? := by
  induction keys generalizing values with
  | nil => simp [instanceIndex, List.lookup]
  | cons k ks ih =>
    cases values with
    | nil =>
      unfold instanceIndex
      by_cases hk : k = "instance"
      · simp [hk, List.lookup]
      · rw [if_neg hk]
        cases instanceIndex ks <;> simp [List.lookup]
    | cons v vs =>
      unfold instanceIndex
      by_cases hk : k = "instance"
      · simp [hk, List.lookup]
      · rw [if_neg hk]
        have hb : ("instance" == k) = false := by
          simp only [beq_eq_false_iff_ne, ne_eq]
          exact fun h => hk h.symm
        rw [List.zip_cons_cons, List.lookup_cons, hb]
        simp only []
        rw [ih vs]
        cases instanceIndex ks <;> simp

theorem instanceValuePresent_of_length_eq (s : Metric)
    (h : s.LabelKeys.length = s.LabelValues.length) : instanceValuePresent s = true := by
  unfold instanceValuePresent
  cases hi : instanceIndex s.LabelKeys with
  | none => rfl
  | some i =>
    have := instanceIndex_lt s.LabelKeys i hi
    simp only [decide_eq_true_eq]
    omega

theorem addNodename_eq (d : StringMap) (s : Metric) (h : instanceValuePresent s = true) :
    addNodename s d = some (enrichedMetric d s) := by
  unfold addNodename enrichedMetric
  rw [lookup_instance_zip]
  unfold instanceValuePresent at h
  cases hi : instanceIndex s.LabelKeys with
  | none => simp
  | some i =>
    rw [hi] at h
    have hlt : i < s.LabelValues.length := by simpa using h
    simp only [Option.some_bind]
    rw [List.get?_eq_getElem?, List.getElem?_eq_getElem hlt]

theorem addNodenameAll_eq (d : StringMap) (source : List Metric)
    (h : ∀ s ∈ source, instanceValuePresent s = true) :
    addNodenameAll d source = some (source.map (enrichedMetric d)) := by
  induction source with
  | nil => rfl
  | cons s rest ih =>
    have hs := addNodename_eq d s (h s (List.mem_cons_self _ _))
    have hrest := ih (fun t ht => h t (List.mem_cons_of_mem _ ht))
    simp only [addNodenameAll, hs, hrest, List.map_cons]

theorem enrichedMetric_keys (d : StringMap) (s : Metric) :
    (enrichedMetric d s).LabelKeys =
      s.LabelKeys ++ (if ((s.LabelKeys.zip s.LabelValues).lookup "instance").isSome
        then ["nodename_for_board"] else []) := by
  unfold enrichedMetric
  cases (s.LabelKeys.zip s.LabelValues).lookup "instance" <;> simp

theorem enrichedMetric_preserves (d : StringMap) (s : Metric) :
    s.LabelKeys <+: (enrichedMetric d s).LabelKeys ∧
    s.LabelValues <+: (enrichedMetric d s).LabelValues ∧
    (enrichedMetric d s).Value = s.Value ∧
    (s.LabelKeys.length = s.LabelValues.length →
      (enrichedMetric d s).LabelKeys.length = (enrichedMetric d s).LabelValues.length) := by
  unfold enrichedMetric
  cases (s.LabelKeys.zip s.LabelValues).lookup "instance" with
  | none => simp
  | some v =>
    refine ⟨?_, ?_, rfl, ?_⟩
    · exact List.prefix_append _ _
    · exact List.prefix_append _ _
    · intro h
      simp [h]

/-- C2, as stated, fails in its gloss of the appended value: the instance `10.0.0.5` has no
port, its port-stripped address is a key of the directory, and the appended label value is
the literal instance string, not the node name. -/
theorem addMetricNodenameBaseOnInstance_no_port_counterexample :
    List.lookup (addressPart "10.0.0.5") [("10.0.0.5", "node-a")] = some "node-a" ∧
    addMetricNodenameBaseOnInstance
        [{ LabelKeys := ["instance"], LabelValues := ["10.0.0.5"], Value := 1 }]
        (some [("10.0.0.5", "node-a")]) =
      some [{ LabelKeys := ["instance", "nodename_for_board"]
              LabelValues := ["10.0.0.5", "10.0.0.5"], Value := 1 }] := by
  decide

/-- C2, amended: for metrics whose label keys and label values have equal length and a
non-nil directory `d`, the result is the metrics in the same order with unchanged values,
each metric with an `instance` key getting exactly one label appended at the end, with key
`nodename_for_board` and value `getMapString v d` for `v` the value paired with its first
`instance` key, each other metric unchanged; that value is the node name when `v` contains
a colon and its port-stripped address is a key of `d`, and the literal instance string
otherwise; with the sample of the spec. -/
theorem addMetricNodenameBaseOnInstance_enriches (source : List Metric) (d : StringMap)
    (h : ∀ s ∈ source, s.LabelKeys.length = s.LabelValues.length) :
    addMetricNodenameBaseOnInstance source (some d) = some (source.map (enrichedMetric d)) ∧
    (∀ s ∈ source, "instance" ∉ s.LabelKeys → enrichedMetric d s = s) ∧
    (∀ s ∈ source, "instance" ∈ s.LabelKeys →
      ∃ i v, instanceIndex s.LabelKeys = some i ∧ s.LabelValues.get? i = some v ∧
        enrichedMetric d s =
          { LabelKeys := s.LabelKeys ++ ["nodename_for_board"]
            LabelValues := s.LabelValues ++ [getMapString v (some d)]
            Value := s.Value }) ∧
    (∀ v : String, getMapString v (some d) =
      if ':' ∈ v.data then
        match d.lookup (addressPart v) with
        | some name => name
        | none => v
      else v) ∧
    addMetricNodenameBaseOnInstance
        [{ LabelKeys := ["instance"], LabelValues := ["10.0.0.5:9100"], Value := 0.42 }]
        (some [("10.0.0.5", "node-a")]) =
      some [{ LabelKeys := ["instance", "nodename_for_board"]
              LabelValues := ["10.0.0.5:9100", "node-a"], Value := 0.42 }] := by
  refine ⟨?_, ?_, ?_, ?_, ?_⟩
  · exact addNodenameAll_eq d source
      (fun s hs => instanceValuePresent_of_length_eq s (h s hs))
  · intro s _ hs
    unfold enrichedMetric
    rw [lookup_instance_zip, (instanceIndex_eq_none_iff s.LabelKeys).mpr hs]
    rfl
  · intro s hs hin
    cases hi : instanceIndex s.LabelKeys with
    | none => exact absurd hin ((instanceIndex_eq_none_iff s.LabelKeys).mp hi)
    | some i =>
      have hlt : i < s.LabelValues.length := by
        have := instanceIndex_lt s.LabelKeys i hi
        have := h s hs
        omega
      refine ⟨i, s.LabelValues[i], rfl, ?_, ?_⟩
      · rw [List.get?_eq_getElem?, List.getElem?_eq_getElem hlt]
      · unfold enrichedMetric
        rw [lookup_instance_zip, hi]
        simp only [Option.some_bind]
        rw [List.get?_eq_getElem?, List.getElem?_eq_getElem hlt]
  · intro v
    rw [getMapString_eq]
    simp only
    split
    · cases d.lookup (addressPart v) <;> rfl
    · rfl
  · simp [addMetricNodenameBaseOnInstance, addNodenameAll, addNodename, instanceIndex]
    decide

/-- Witness of `addMetricNodenameBaseOnInstance_enriches` on two metrics, one with and one
without an `instance` label. -/
theorem addMetricNodenameBaseOnInstance_enriches_witness :
    addMetricNodenameBaseOnInstance
        [{ LabelKeys := ["instance"], LabelValues := ["10.0.0.5:9100"], Value := 1 },
         { LabelKeys := ["job"], LabelValues := ["x"], Value := 2 }]
        (some [("10.0.0.5", "node-a")]) =
      some (List.map (enrichedMetric [("10.0.0.5", "node-a")])
        [{ LabelKeys := ["instance"], LabelValues := ["10.0.0.5:9100"], Value := 1 },
         { LabelKeys := ["job"], LabelValues := ["x"], Value := 2 }]) :=
  (addMetricNodenameBaseOnInstance_enriches
    [{ LabelKeys := ["instance"], LabelValues := ["10.0.0.5:9100"], Value := 1 },
     { LabelKeys := ["job"], LabelValues := ["x"], Value := 2 }]
    [("10.0.0.5", "node-a")] (by decide)).1

/-- C8, as stated, fails: for a metric with the label key `instance` and no label value,
and a non-nil (empty) directory, the read of the label value at the position of `instance`
is out of range and the function panics, so there is no output. -/
theorem addMetricNodenameBaseOnInstance_panic_counterexample :
    addMetricNodenameBaseOnInstance
      [{ LabelKeys := ["instance"], LabelValues := [], Value := 1 }] (some []) = none := by
  decide

/-- C8, amended: for every list of metrics and every directory (nil or not) such that the
directory is nil or every metric with an `instance` key has a label value at the position of
its first `instance` key (so in particular when label keys and label values have equal
length), the function returns, the output has the same number of metrics in the same order,
each input metric's label keys and label values are a prefix of those of the corresponding
output metric, the value is unchanged, and equal lengths of label keys and label values are
preserved. -/
theorem addMetricNodenameBaseOnInstance_preserves_labels (source : List Metric)
    (mapping : Option StringMap)
    (h : mapping = none ∨ ∀ s ∈ source, instanceValuePresent s = true) :
    ∃ out, addMetricNodenameBaseOnInstance source mapping = some out ∧
      out.length = source.length ∧
      ∀ i s, source.get? i = some s →
        ∃ t, out.get? i = some t ∧
          s.LabelKeys <+: t.LabelKeys ∧ s.LabelValues <+: t.LabelValues ∧
          t.Value = s.Value ∧
          (s.LabelKeys.length = s.LabelValues.length →
            t.LabelKeys.length = t.LabelValues.length) := by
  cases mapping with
  | none =>
    refine ⟨source, rfl, rfl, ?_⟩
    intro i s hs
    exact ⟨s, hs, List.prefix_refl _, List.prefix_refl _, rfl, fun h => h⟩
  | some d =>
    have hall : ∀ s ∈ source, instanceValuePresent s = true := by
      cases h with
      | inl h => cases h
      | inr h => exact h
    refine ⟨source.map (enrichedMetric d), addNodenameAll_eq d source hall, by simp, ?_⟩
    intro i s hs
    refine ⟨enrichedMetric d s, ?_, enrichedMetric_preserves d s⟩
    simp only [List.get?_eq_getElem?, List.getElem?_map] at hs ⊢
    rw [hs]
    rfl

/-- Witness of `addMetricNodenameBaseOnInstance_preserves_labels` on a metric with more
label keys than label values whose `instance` key has a value. -/
theorem addMetricNodenameBaseOnInstance_preserves_labels_witness :
    ∃ out, addMetricNodenameBaseOnInstance
        [{ LabelKeys := ["instance", "job"], LabelValues := ["10.0.0.5:9100"], Value := 1 }]
        (some [("10.0.0.5", "node-a")]) = some out ∧
      out.length = 1 ∧
      ∀ i s, List.get?
          [({ LabelKeys := ["instance", "job"], LabelValues := ["10.0.0.5:9100"],
              Value := 1 } : Metric)] i = some s →
        ∃ t, out.get? i = some t ∧
          s.LabelKeys <+: t.LabelKeys ∧ s.LabelValues <+: t.LabelValues ∧
          t.Value = s.Value ∧
          (s.LabelKeys.length = s.LabelValues.length →
            t.LabelKeys.length = t.LabelValues.length) :=
  addMetricNodenameBaseOnInstance_preserves_labels
    [{ LabelKeys := ["instance", "job"], LabelValues := ["10.0.0.5:9100"], Value := 1 }]
    (some [("10.0.0.5", "node-a")])
    (Or.inr (by decide))

/-! ## Uniqueness of label keys -/

theorem convert_lookup_isSome (pm : PromMetric) :
    (((convertPromMetricToKSMMetric pm).LabelKeys.zip
        (convertPromMetricToKSMMetric pm).LabelValues).lookup "instance").isSome =
      decide ("instance" ∈ pm.map (fun kv => kv.1)) := by
  rw [lookup_instance_zip]
  simp only [convertPromMetricToKSMMetric]
  cases hi : instanceIndex (pm.map (fun kv => kv.1)) with
  | none =>
    have := (instanceIndex_eq_none_iff _).mp hi
    simp [this]
  | some i =>
    have hlt := instanceIndex_lt _ i hi
    have hin : "instance" ∈ pm.map (fun kv => kv.1) := by
      by_contra hc
      rw [(instanceIndex_eq_none_iff _).mpr hc] at hi
      cases hi
    simp only [List.length_map] at hlt
    have hlt' : i < (pm.map (fun kv => kv.2)).length := by simpa using hlt
    simp only [Option.some_bind, List.get?_eq_getElem?, List.getElem?_eq_getElem hlt',
      Option.isSome_some]
    simp only [hin, decide_True]

theorem instanceValuePresent_convert (pm : PromMetric) :
    instanceValuePresent (convertPromMetricToKSMMetric pm) = true :=
  instanceValuePresent_of_length_eq _ (by simp [convertPromMetricToKSMMetric])

/-- C9, as stated, fails: a sample label set with distinct keys that already has a label
`nodename_for_board` beside `instance` is enriched into a metric in which the key
`nodename_for_board` occurs twice. -/
theorem labelKeys_duplicate_counterexample :
    addMetricNodenameBaseOnInstance
        [convertPromMetricToKSMMetric
          [("instance", "10.0.0.5:9100"), ("nodename_for_board", "x")]] (some []) =
      some [{ LabelKeys := ["instance", "nodename_for_board", "nodename_for_board"]
              LabelValues := ["10.0.0.5:9100", "x", "10.0.0.5:9100"], Value := 0 }] ∧
    (List.map (fun kv => kv.1)
      [("instance", "10.0.0.5:9100"), ("nodename_for_board", "x")]).Nodup ∧
    ¬ (["instance", "nodename_for_board", "nodename_for_board"] : List String).Nodup := by
  decide

/-- C9, amended: for every sample label set (the keys of a map are pairwise distinct) and
every directory, converting the sample and then enriching it returns one metric, whose label
keys are pairwise distinct exactly when the directory is nil, or the sample has no
`instance` label, or the sample has no label named `nodename_for_board` already. -/
theorem labelKeys_nodup_iff (pm : PromMetric) (mapping : Option StringMap)
    (hpm : (pm.map (fun kv => kv.1)).Nodup) :
    ∃ out, addMetricNodenameBaseOnInstance [convertPromMetricToKSMMetric pm] mapping
        = some [out] ∧
      (out.LabelKeys.Nodup ↔
        (mapping = none ∨ "instance" ∉ pm.map (fun kv => kv.1) ∨
          "nodename_for_board" ∉ pm.map (fun kv => kv.1))) := by
  cases mapping with
  | none =>
    refine ⟨convertPromMetricToKSMMetric pm, rfl, ?_⟩
    simp [convertPromMetricToKSMMetric, hpm]
  | some d =>
    refine ⟨enrichedMetric d (convertPromMetricToKSMMetric pm), ?_, ?_⟩
    · have := addNodenameAll_eq d [convertPromMetricToKSMMetric pm] (by
        intro s hs
        simp only [List.mem_singleton] at hs
        subst hs
        exact instanceValuePresent_convert pm)
      simpa [addMetricNodenameBaseOnInstance] using this
    · rw [enrichedMetric_keys, convert_lookup_isSome]
      by_cases hin : "instance" ∈ pm.map (fun kv => kv.1)
      · simp only [hin, decide_True, if_true, convertPromMetricToKSMMetric]
        rw [List.nodup_append]
        simp only [List.nodup_cons, List.not_mem_nil, not_false_eq_true, List.nodup_nil,
          and_self, and_true, List.disjoint_singleton, hpm, true_and, not_true_eq_false,
          false_or, reduceCtorEq]
      · simp only [hin, decide_False, convertPromMetricToKSMMetric]
        simp [hpm, hin]

/-- Witness of `labelKeys_nodup_iff` on the label set of the `sum by (instance)` queries. -/
theorem labelKeys_nodup_iff_witness :
    ∃ out, addMetricNodenameBaseOnInstance
        [convertPromMetricToKSMMetric [("instance", "10.0.0.5:9100")]]
        (some [("10.0.0.5", "node-a")]) = some [out] ∧
      (out.LabelKeys.Nodup ↔
        ((some [("10.0.0.5", "node-a")] : Option StringMap) = none ∨
          "instance" ∉ List.map (fun kv => kv.1) [("instance", "10.0.0.5:9100")] ∨
          "nodename_for_board" ∉
            List.map (fun kv => kv.1) [("instance", "10.0.0.5:9100")])) :=
  labelKeys_nodup_iff [("instance", "10.0.0.5:9100")] (some [("10.0.0.5", "node-a")])
    (by decide)

/-! ## The query adapters -/

theorem map_eq_self_iff_forall {α : Type} (f : α → α) (l : List α) :
    l.map f = l ↔ ∀ a ∈ l, f a = a := by
  induction l with
  | nil => simp
  | cons a l ih => simp [ih]

theorem zip_map_fst_snd {α β : Type} (l : List (α × β)) :
    (l.map (fun kv => kv.1)).zip (l.map (fun kv => kv.2)) = l := by
  induction l with
  | nil => rfl
  | cons kv rest ih => simp [ih]

theorem sanitizeLabelName_eq_self_iff (k : String) :
    sanitizeLabelName k = k ↔ ∀ c ∈ k.data, invalidLabelCharRE c = false := by
  unfold sanitizeLabelName
  rw [String.ext_iff]
  simp only
  rw [map_eq_self_iff_forall]
  constructor
  · intro h c hc
    have h1 := h c hc
    by_contra hne
    have hinv : invalidLabelCharRE c = true := by simpa using hne
    rw [if_pos hinv] at h1
    rw [← h1, invalidLabelCharRE_underscore] at hinv
    cases hinv
  · intro h c hc
    simp [h c hc]

/-- C4, as stated, fails: the label key `node-name` of a sample is emitted unchanged,
whereas `sanitizeLabelName` of it is `node_name`. -/
theorem getMultiSampleValues_unsanitized_counterexample :
    getMultiSampleValues
        (fun _ => .success (.vector [{ Metric := [("node-name", "a")], Value := 1 }]) [])
        NODE_CPU_UTILIZATION_PSQL =
      ([{ LabelKeys := ["node-name"], LabelValues := ["a"], Value := 1 }], none) ∧
    sanitizeLabelName "node-name" = "node_name" ∧
    ("node-name" : String) ≠ sanitizeLabelName "node-name" := by
  decide

/-- C4, amended: the metric that `getMultiSampleValues` builds for each sample of a vector
response has the sample value and one label per label of the sample, each label key being
the sample's key itself, unchanged and not sanitized, positionally paired with that key's
value unchanged; an emitted key equals `sanitizeLabelName` of the sample's key exactly when
the sample's key has only characters of `[A-Za-z0-9_]`. -/
theorem getMultiSampleValues_converts (papi : PromAPI) (psql : String) :
    (getMultiSampleValues papi psql =
      match papi psql with
      | .failure err => ([], some err)
      | .success (.vector vec) _ =>
        (vec.map (fun v =>
          { LabelKeys := v.Metric.map (fun kv => kv.1)
            LabelValues := v.Metric.map (fun kv => kv.2)
            Value := v.Value }), none)
      | .success values _ => ([], some (notVectorError psql values))) ∧
    (∀ v : Sample,
      (sampleToMetric v).Value = v.Value ∧
      (sampleToMetric v).LabelKeys.length = v.Metric.length ∧
      (sampleToMetric v).LabelValues.length = v.Metric.length ∧
      (sampleToMetric v).LabelKeys.zip (sampleToMetric v).LabelValues = v.Metric ∧
      ∀ i kv, v.Metric.get? i = some kv →
        (sampleToMetric v).LabelKeys.get? i = some kv.1 ∧
        (sampleToMetric v).LabelValues.get? i = some kv.2 ∧
        (kv.1 = sanitizeLabelName kv.1 ↔ ∀ c ∈ kv.1.data, invalidLabelCharRE c = false)) := by
  constructor
  · unfold getMultiSampleValues
    cases papi psql with
    | failure err => rfl
    | success values warns =>
      cases values <;> rfl
  · intro v
    refine ⟨rfl, by simp [sampleToMetric, convertPromMetricToKSMMetric],
      by simp [sampleToMetric, convertPromMetricToKSMMetric], ?_, ?_⟩
    · simp only [sampleToMetric, convertPromMetricToKSMMetric]
      exact zip_map_fst_snd v.Metric
    · intro i kv hkv
      simp only [List.get?_eq_getElem?] at hkv
      refine ⟨?_, ?_, ?_⟩
      · simp [sampleToMetric, convertPromMetricToKSMMetric, hkv]
      · simp [sampleToMetric, convertPromMetricToKSMMetric, hkv]
      · rw [eq_comm]
        exact sanitizeLabelName_eq_self_iff kv.1

/-- C7: `getSingleSampleValue` fails exactly when the query call returns an error or the
result is not a vector; on a vector with at least one element it succeeds with the value of
the first element in the returned order; on a vector of length zero it succeeds. -/
theorem getSingleSampleValue_outcome (papi : PromAPI) (psql : String) :
    ((getSingleSampleValue papi psql).2 ≠ none ↔
      ((∃ err, papi psql = .failure err) ∨
        (∃ values warns, papi psql = .success values warns ∧ ∀ vec, values ≠ .vector vec))) ∧
    (∀ sample rest warns, papi psql = .success (.vector (sample :: rest)) warns →
      getSingleSampleValue papi psql = (sample.Value, none)) ∧
    (∀ warns, papi psql = .success (.vector []) warns →
      getSingleSampleValue papi psql = (0, none)) := by
  unfold getSingleSampleValue
  refine ⟨?_, ?_, ?_⟩
  · cases papi psql with
    | failure err => simp
    | success values warns =>
      cases values with
      | vector vec => cases vec <;> simp
      | none => simp
      | scalar v => simp
      | matrix => simp
      | string s => simp
  · intro sample rest warns h
    rw [h]
  · intro warns h
    rw [h]

/-! ## The cluster collector -/

theorem getSingleSampleValue_selected (papi : PromAPI) (psql : String) :
    (if (getSingleSampleValue papi psql).2.isSome then 0
      else (getSingleSampleValue papi psql).1) = selectedSample (papi psql) := by
  unfold getSingleSampleValue selectedSample
  cases papi psql with
  | failure err => rfl
  | success values warns =>
    cases values with
    | vector vec => cases vec <;> rfl
    | none => rfl
    | scalar v => rfl
    | matrix => rfl
    | string s => rfl

/-- C5: when the query client is constructed, `getClusterResourceMetrics` returns exactly one
`ClusterValue`, with identity `cluster_utilization`, whose CPU and Memory are metrics with
zero labels and with the value selected from their own query (the first sample of the
vector), `0` when that query failed; when both queries fail both values are `0`; and each
of the two cluster families generates exactly one metric from that object. -/
theorem getClusterResourceMetrics_one_object (papi : PromAPI) :
    getClusterResourceMetrics (.ok papi) =
      [{ UID := "cluster_utilization"
         CPU := { LabelKeys := [], LabelValues := []
                  Value := selectedSample (papi CLUSTER_CPU_UTILIZATION_PSQL) }
         Memory := { LabelKeys := [], LabelValues := []
                     Value := selectedSample (papi CLUSTER_MEMORY_UTILIZATION_PSQL) } }] ∧
    CLUSTER_CPU_UTILIZATION_PSQL ≠ CLUSTER_MEMORY_UTILIZATION_PSQL ∧
    (∀ psql, (getSingleSampleValue papi psql).2 ≠ none → selectedSample (papi psql) = 0) ∧
    (∀ psql sample rest warns, papi psql = .success (.vector (sample :: rest)) warns →
      selectedSample (papi psql) = sample.Value) ∧
    ((getSingleSampleValue papi CLUSTER_CPU_UTILIZATION_PSQL).2 ≠ none →
      (getSingleSampleValue papi CLUSTER_MEMORY_UTILIZATION_PSQL).2 ≠ none →
      getClusterResourceMetrics (.ok papi) =
        [{ UID := "cluster_utilization"
           CPU := { LabelKeys := [], LabelValues := [], Value := 0 }
           Memory := { LabelKeys := [], LabelValues := [], Value := 0 } }]) ∧
    (∀ obj ∈ getClusterResourceMetrics (.ok papi),
      clusterResourceMetricFamilies.map (fun f => f.GenerateFunc obj) =
        [[obj.CPU], [obj.Memory]]) := by
  have hsel : ∀ psql, (getSingleSampleValue papi psql).2 ≠ none →
      selectedSample (papi psql) = 0 := by
    intro psql h
    rw [← getSingleSampleValue_selected]
    have h' : (getSingleSampleValue papi psql).2.isSome = true := by
      cases hv : (getSingleSampleValue papi psql).2 with
      | none => exact absurd hv h
      | some e => rfl
    rw [if_pos h']
  have hmain : getClusterResourceMetrics (.ok papi) =
      [{ UID := "cluster_utilization"
         CPU := { LabelKeys := [], LabelValues := []
                  Value := selectedSample (papi CLUSTER_CPU_UTILIZATION_PSQL) }
         Memory := { LabelKeys := [], LabelValues := []
                     Value := selectedSample (papi CLUSTER_MEMORY_UTILIZATION_PSQL) } }] := by
    simp only [getClusterResourceMetrics, getSingleSampleValue_selected]
  refine ⟨hmain, by decide, hsel, ?_, ?_, ?_⟩
  · intro psql sample rest warns h
    rw [h]
    rfl
  · intro h1 h2
    rw [hmain, hsel _ h1, hsel _ h2]
  · intro obj hobj
    rfl

/-! ## The node collector -/

theorem addMetricNodenameBaseOnInstance_getMultiSampleValues (papi : PromAPI) (psql : String)
    (d : StringMap) :
    addMetricNodenameBaseOnInstance (getMultiSampleValues papi psql).1 (some d) =
      some (enrichedConversion d (papi psql)) := by
  unfold getMultiSampleValues enrichedConversion
  cases papi psql with
  | failure err => rfl
  | success values warns =>
    cases values with
    | vector vec =>
      simp only [addMetricNodenameBaseOnInstance]
      rw [addNodenameAll_eq, List.map_map]
      · rfl
      · intro s hs
        simp only [List.mem_map] at hs
        obtain ⟨v, _, hv⟩ := hs
        subst hv
        exact instanceValuePresent_of_length_eq _
          (by simp [sampleToMetric, convertPromMetricToKSMMetric])
    | none => rfl
    | scalar v => rfl
    | matrix => rfl
    | string s => rfl

/-- C6, as stated, fails: when the node client cannot be constructed because
`kubernetes.NewForConfig` fails on a configuration that was built, `createk8sClient`
panics, and `getNodeResourceMetrics` does not return an empty list. -/
theorem getNodeResourceMetrics_panic_counterexample :
    createk8sClient (.ok ()) (.error "invalid configuration") = none ∧
    getNodeResourceMetrics (.ok (fun _ => .success (.vector []) [])) (.ok ())
      (.error "invalid configuration") = none ∧
    getNodeResourceMetrics (.ok (fun _ => .success (.vector []) [])) (.ok ())
      (.error "invalid configuration") ≠ some [] := by
  refine ⟨rfl, rfl, ?_⟩
  intro h
  cases h

/-- C6, amended: `getNodeResourceMetrics` returns no result (an empty list) whenever the
configuration of the node client cannot be built or the node listing call fails (and when
the query client cannot be constructed); whenever the constructions and the listing succeed
it returns exactly one `NodeValues` with identity `node_memory_utilization` in which each of
CPU, Memory and Storage is the enriched conversion of its own query's vector, or an empty
sequence when that one query failed, independently of the other two queries; when the
construction of the client from a built configuration fails, the call panics. -/
theorem getNodeResourceMetrics_result (papi : PromAPI) (newForConfig : Except GoError Clientset) :
    (∀ err buildConfig, getNodeResourceMetrics (.error err) buildConfig newForConfig
      = some []) ∧
    (∀ err, getNodeResourceMetrics (.ok papi) (.error err) newForConfig = some []) ∧
    (∀ err, getNodeResourceMetrics (.ok papi) (.ok ()) (.ok { nodesList := .error err })
      = some []) ∧
    (∀ nodes, getNodeResourceMetrics (.ok papi) (.ok ()) (.ok { nodesList := .ok nodes }) =
      some [{ UID := "node_memory_utilization"
              CPU := enrichedConversion (buildNodeMap nodes) (papi NODE_CPU_UTILIZATION_PSQL)
              Memory :=
                enrichedConversion (buildNodeMap nodes) (papi NODE_MEMORY_UTILIZATION_PSQL)
              Storage :=
                enrichedConversion (buildNodeMap nodes)
                  (papi NODE_STORAGE_UTILIZATION_PSQL) }]) ∧
    (∀ d psql, (getMultiSampleValues papi psql).2 ≠ none →
      enrichedConversion d (papi psql) = []) ∧
    (NODE_CPU_UTILIZATION_PSQL ≠ NODE_MEMORY_UTILIZATION_PSQL ∧
      NODE_CPU_UTILIZATION_PSQL ≠ NODE_STORAGE_UTILIZATION_PSQL ∧
      NODE_MEMORY_UTILIZATION_PSQL ≠ NODE_STORAGE_UTILIZATION_PSQL) ∧
    (∀ err, getNodeResourceMetrics (.ok papi) (.ok ()) (.error err) = none) := by
  refine ⟨fun _ _ => rfl, fun _ => rfl, fun _ => rfl, ?_, ?_, by decide, fun _ => rfl⟩
  · intro nodes
    simp only [getNodeResourceMetrics, createk8sClient,
      addMetricNodenameBaseOnInstance_getMultiSampleValues]
  · intro d psql h
    unfold getMultiSampleValues at h
    unfold enrichedConversion
    cases hp : papi psql with
    | failure err => rfl
    | success values warns =>
      cases values with
      | vector vec => simp [hp] at h
      | none => rfl
      | scalar v => rfl
      | matrix => rfl
      | string s => rfl

/-! ## The refresh loop -/

theorem refreshCycle_recordUpdate {α : Type} (calls objs : List α) :
    refreshCycle recordUpdate calls objs = calls ++ objs := by
  induction objs generalizing calls with
  | nil => simp [refreshCycle]
  | cons o rest ih =>
    have h := ih (calls ++ [o])
    simp only [refreshCycle, List.foldl_cons, recordUpdate] at h ⊢
    rw [h]
    simp

theorem MetricsStore.lookup_Update {α : Type} (uid : α → String) (s : MetricsStore α)
    (obj : α) (k : String) :
    (MetricsStore.Update uid s obj).lookup k =
      if k = uid obj then some obj else s.lookup k := by
  unfold MetricsStore.Update
  by_cases hk : k = uid obj
  · subst hk
    simp [List.lookup]
  · have hb : (k == uid obj) = false := by simpa using hk
    rw [List.lookup_cons, hb, if_neg hk]
    simp only []
    induction s with
    | nil => rfl
    | cons e rest ih =>
      by_cases he : e.1 = uid obj
      · have hke : (k == e.1) = false := by
          rw [he]
          exact hb
        have hf : (e.1 != uid obj) = false := by simp [he]
        rw [List.filter_cons, hf]
        simp only [Bool.false_eq_true, if_false]
        rw [ih]
        obtain ⟨e1, e2⟩ := e
        rw [List.lookup_cons]
        simp only at hke
        rw [hke]
      · have hf : (e.1 != uid obj) = true := by simpa using he
        rw [List.filter_cons, hf]
        simp only [if_true]
        obtain ⟨e1, e2⟩ := e
        rw [List.lookup_cons, List.lookup_cons, ih]

theorem MetricsStore.filter_Update {α : Type} (uid : α → String) (s : MetricsStore α)
    (obj : α) :
    (MetricsStore.Update uid s obj).filter (fun e => e.1 == uid obj) = [(uid obj, obj)] := by
  unfold MetricsStore.Update
  rw [List.filter_cons]
  simp only [beq_self_eq_true, if_true, List.cons.injEq, true_and]
  rw [List.filter_filter, List.filter_eq_nil_iff]
  intro e _
  cases h : (e.1 == uid obj) <;> simp [bne, h]

theorem retriveFromProm_step {σ α : Type} (update : σ → α → σ) (store : σ)
    (ticks : List (List α)) (objs : List α) :
    retriveFromProm update store (ticks ++ [objs]) =
      refreshCycle update (retriveFromProm update store ticks) objs := by
  simp [retriveFromProm]

theorem retriveFromProm_recordUpdate {α : Type} (calls : List α) (ticks : List (List α)) :
    retriveFromProm recordUpdate calls ticks = calls ++ ticks.flatten := by
  induction ticks generalizing calls with
  | nil => simp [retriveFromProm]
  | cons objs rest ih =>
    have h := ih (refreshCycle recordUpdate calls objs)
    simp only [retriveFromProm, List.foldl_cons] at h ⊢
    rw [h, refreshCycle_recordUpdate]
    simp

/-- C10: one cycle of the refresh loop calls `update` exactly once per object returned by the
acquisition function, in order, and makes no store call when acquisition returns an empty
result, so that the store is then unchanged; the loop of `retriveFromProm` runs the cycles
one after the other on the store left by the cycles before (so over any sequence of cycles
the calls of `update` are exactly the returned objects, in order, and a cycle with an empty
result leaves the store of the earlier cycles unchanged); with the store a mapping from
identity key to object whose update replaces the entry under the key of the object, after
two consecutive cycles whose acquisitions each return one object under the same identity
key, whatever cycles came before, the store holds under that key only the object of the
second cycle, the other keys being unchanged. -/
theorem retriveFromProm_refresh {σ α : Type} (update : σ → α → σ) (store : σ)
    (calls objs : List α) (ticks : List (List α)) (uid : α → String) (s : MetricsStore α)
    (o1 o2 : α) (h : uid o1 = uid o2) :
    refreshCycle recordUpdate calls objs = calls ++ objs ∧
    refreshCycle recordUpdate calls ([] : List α) = calls ∧
    refreshCycle update store [] = store ∧
    retriveFromProm update store [[], objs] = refreshCycle update store objs ∧
    (retriveFromProm (MetricsStore.Update uid) s [[o1], [o2]]).lookup (uid o1) = some o2 ∧
    (retriveFromProm (MetricsStore.Update uid) s [[o1], [o2]]).filter
      (fun e => e.1 == uid o1) = [(uid o1, o2)] ∧
    (∀ k, k ≠ uid o1 →
      (retriveFromProm (MetricsStore.Update uid) s [[o1], [o2]]).lookup k = s.lookup k) ∧
    retriveFromProm update store [] = store ∧
    retriveFromProm update store (ticks ++ [objs]) =
      refreshCycle update (retriveFromProm update store ticks) objs ∧
    retriveFromProm update store (objs :: ticks) =
      retriveFromProm update (refreshCycle update store objs) ticks ∧
    retriveFromProm update store (ticks ++ [[]]) = retriveFromProm update store ticks ∧
    retriveFromProm update store ([] :: ticks) = retriveFromProm update store ticks ∧
    retriveFromProm recordUpdate calls ticks = calls ++ ticks.flatten ∧
    (retriveFromProm (MetricsStore.Update uid) s (ticks ++ [[o1], [o2]])).lookup (uid o1)
      = some o2 ∧
    (retriveFromProm (MetricsStore.Update uid) s (ticks ++ [[o1], [o2]])).filter
      (fun e => e.1 == uid o1) = [(uid o1, o2)] ∧
    (∀ k, k ≠ uid o1 →
      (retriveFromProm (MetricsStore.Update uid) s (ticks ++ [[o1], [o2]])).lookup k =
        (retriveFromProm (MetricsStore.Update uid) s ticks).lookup k) := by
  have htwo :
      retriveFromProm (MetricsStore.Update uid) s (ticks ++ [[o1], [o2]]) =
        MetricsStore.Update uid
          (MetricsStore.Update uid (retriveFromProm (MetricsStore.Update uid) s ticks) o1)
          o2 := by
    simp [retriveFromProm, refreshCycle]
  refine ⟨refreshCycle_recordUpdate calls objs, ?_, rfl, rfl, ?_, ?_, ?_, rfl,
    retriveFromProm_step update store ticks objs, rfl, ?_, rfl,
    retriveFromProm_recordUpdate calls ticks, ?_, ?_, ?_⟩
  · simpa using refreshCycle_recordUpdate calls ([] : List α)
  · simp only [retriveFromProm, refreshCycle, List.foldl_cons, List.foldl_nil]
    rw [MetricsStore.lookup_Update, if_pos h]
  · simp only [retriveFromProm, refreshCycle, List.foldl_cons, List.foldl_nil]
    rw [h]
    exact MetricsStore.filter_Update uid _ o2
  · intro k hk
    simp only [retriveFromProm, refreshCycle, List.foldl_cons, List.foldl_nil]
    rw [MetricsStore.lookup_Update, if_neg (h ▸ hk), MetricsStore.lookup_Update, if_neg hk]
  · rw [retriveFromProm_step]
    rfl
  · rw [htwo, MetricsStore.lookup_Update, if_pos h]
  · rw [htwo, h]
    exact MetricsStore.filter_Update uid _ o2
  · intro k hk
    rw [htwo, MetricsStore.lookup_Update, if_neg (h ▸ hk), MetricsStore.lookup_Update,
      if_neg hk]

/-- Witness of `retriveFromProm_refresh`: after an earlier cycle that stored a first cluster
value, two cycles returning cluster values of different CPU value under the identity key
`cluster_utilization` leave only the last one under that key. -/
theorem retriveFromProm_refresh_witness :
    (retriveFromProm (MetricsStore.Update ClusterValue.UID) []
      ([[{ UID := "cluster_utilization"
           CPU := { LabelKeys := [], LabelValues := [], Value := 0 }
           Memory := { LabelKeys := [], LabelValues := [], Value := 0 } }], []] ++
       [[{ UID := "cluster_utilization"
           CPU := { LabelKeys := [], LabelValues := [], Value := 1 }
           Memory := { LabelKeys := [], LabelValues := [], Value := 1 } }],
        [{ UID := "cluster_utilization"
           CPU := { LabelKeys := [], LabelValues := [], Value := 2 }
           Memory := { LabelKeys := [], LabelValues := [], Value := 1 } }]])).filter
      (fun e => e.1 == "cluster_utilization") =
      [("cluster_utilization",
        { UID := "cluster_utilization"
          CPU := { LabelKeys := [], LabelValues := [], Value := 2 }
          Memory := { LabelKeys := [], LabelValues := [], Value := 1 } })] :=
  (retriveFromProm_refresh (fun (u : Unit) (_ : ClusterValue) => u) () [] []
    [[{ UID := "cluster_utilization"
        CPU := { LabelKeys := [], LabelValues := [], Value := 0 }
        Memory := { LabelKeys := [], LabelValues := [], Value := 0 } }], []]
    ClusterValue.UID []
    { UID := "cluster_utilization"
      CPU := { LabelKeys := [], LabelValues := [], Value := 1 }
      Memory := { LabelKeys := [], LabelValues := [], Value := 1 } }
    { UID := "cluster_utilization"
      CPU := { LabelKeys := [], LabelValues := [], Value := 2 }
      Memory := { LabelKeys := [], LabelValues := [], Value := 1 } }
    rfl).2.2.2.2.2.2.2.2.2.2.2.2.2.2.1

end Collectors
